import Mathlib

/-
Verification of the Probaho browser chat client (frontend `app.js`).

The component keeps an in-memory transcript of messages, two counters
(`lineCounter`, starting at 1, and `messageCount`, starting at 0), and an
input field.  `addMessage` appends one message to the transcript and bumps
the counters; `sendMessage` reads the input field, no-ops on blank input,
otherwise appends the user message, clears the field, issues one POST
request and processes the reply inside a try/catch; a keydown handler
triggers `sendMessage` on Enter without Shift.

The embedding below is a direct translation of that code.  The DOM is
modelled by the transcript list (the `#messages` container in document
order), the `data-line` attribute by the `dataLine` field, and the single
`fetch` by an oracle value of type `FetchOutcome` describing how the
environment answers the request.
-/

namespace Probaho

/-- Sender tag of a transcript message: the code uses the class strings
`'user'` and `'bot'`. -/
inductive Sender where
  | user
  | bot
  deriving DecidableEq, Repr

/-- One rendered message: its text, its sender class, and the value of
`lineCounter` at append time (the `data-line` attribute of the div). -/
structure Message where
  text : String
  sender : Sender
  dataLine : Nat
  deriving DecidableEq, Repr

/-- The page-local state: the two counters declared in the ready handler,
the transcript (children of `#messages`, in document order) and the value
of the `#user-input` field. -/
structure ChatState where
  lineCounter : Nat
  messageCount : Nat
  messages : List Message
  inputField : String
  deriving DecidableEq, Repr

/-- State at page load: `lineCounter = 1`, `messageCount = 0`, empty
transcript; the input field holds whatever the user has typed. -/
def initState (input : String) : ChatState :=
  ⟨1, 0, [], input⟩

/-- Embeds `text.split('\n').length`: the number of newline-delimited
lines of `text` (the empty string counts as one line, as in JS). -/
def countLines (text : String) : Nat :=
  (text.toList.splitOn '\n').length

/-- Embeds the guard `!message.trim()`: true exactly when the string
trims to empty, i.e. every character is whitespace. -/
def isBlank (s : String) : Bool :=
  s.toList.all Char.isWhitespace

/-- Embeds `addMessage(text, sender)`: computes `lines`, appends the
tagged div carrying `data-line = lineCounter`, then advances
`lineCounter` by `lines` and `messageCount` by one. -/
def addMessage (s : ChatState) (text : String) (sender : Sender) : ChatState :=
  { s with
    messages := s.messages ++ [⟨text, sender, s.lineCounter⟩]
    lineCounter := s.lineCounter + countLines text
    messageCount := s.messageCount + 1 }

/-- The fixed literal appended by the catch branch. -/
def errorText : String := "Error connecting to server."

/-- The outbound HTTP request built by the `fetch` call:
`POST`, `Content-Type: application/json`, body
`JSON.stringify({session_id: 'user', message: message})`. -/
structure Request where
  method : String
  contentType : String
  session_id : String
  message : String
  deriving DecidableEq, Repr

/-- The one request `sendMessage` issues for the captured input. -/
def mkRequest (message : String) : Request :=
  ⟨"POST", "application/json", "user", message⟩

/-- How the parsed body of a resolved response behaves in the try block:
`notJson` means `response.json()` throws; `nonArray` means the parsed
value has no usable `forEach` (not an array), so `data.forEach` throws;
`array items` is a JSON array, where each item is `some t` if its `text`
field is the string `t`, and `none` if the item has no usable string
`text` field (so `text.split` inside `addMessage` throws for it). -/
inductive JsonBody where
  | notJson
  | nonArray
  | array (items : List (Option String))
  deriving DecidableEq, Repr

/-- The environment's answer to the single `fetch`: the promise never
settles (`pending`), rejects (`reject`, e.g. connection refused), or
resolves to an HTTP response with some status code and a body.  The code
never reads the status, but the model carries it so that claims about
HTTP error statuses can be stated. -/
inductive FetchOutcome where
  | pending
  | reject
  | resolved (status : Nat) (body : JsonBody)
  deriving DecidableEq, Repr

/-- Embeds `data.forEach(msg => addMessage(msg.text, 'bot'))` on an
array body.  Items are consumed in order; an item without a usable
`text` string throws, which aborts the loop carrying the state mutated
so far (JS exceptions do not roll back prior `addMessage` calls). -/
def runForEach (s : ChatState) : List (Option String) → Except ChatState ChatState
  | [] => Except.ok s
  | some t :: rest => runForEach (addMessage s t Sender.bot) rest
  | none :: _ => Except.error s

/-- Embeds the try/catch around the network call, starting from the
state at the `await fetch(...)` suspension point: a pending promise
leaves the state as it was; a rejection, a non-JSON body, a non-array
value, or a throw inside the `forEach` all reach the catch branch, which
appends the single fixed error message; otherwise the loop's final state
stands. -/
def handleNet (s : ChatState) (net : FetchOutcome) : ChatState :=
  match net with
  | FetchOutcome.pending => s
  | FetchOutcome.reject => addMessage s errorText Sender.bot
  | FetchOutcome.resolved _ JsonBody.notJson => addMessage s errorText Sender.bot
  | FetchOutcome.resolved _ JsonBody.nonArray => addMessage s errorText Sender.bot
  | FetchOutcome.resolved _ (JsonBody.array items) =>
      match runForEach s items with
      | Except.ok s1 => s1
      | Except.error s1 => addMessage s1 errorText Sender.bot

/-- The synchronous prefix of `sendMessage` after the blank-input guard
passes: `addMessage(message, 'user')` followed by clearing the input
field.  Everything up to here happens before the `fetch` is started. -/
def sendMessagePreNet (s : ChatState) : ChatState :=
  { addMessage s s.inputField Sender.user with inputField := "" }

/-- Embeds `sendMessage()`: capture the field, return early when it
trims to empty (no message, no request), otherwise run the synchronous
prefix, issue the one request, and handle the outcome under try/catch.
The second component lists the requests issued by this invocation. -/
def sendMessage (s : ChatState) (net : FetchOutcome) : ChatState × List Request :=
  if isBlank s.inputField then (s, [])
  else (handleNet (sendMessagePreNet s) net, [mkRequest s.inputField])

/-- A keydown event in the input field: the `key` string and the state
of the Shift modifier. -/
structure KeyEvent where
  key : String
  shiftKey : Bool
  deriving DecidableEq, Repr

/-- Embeds the keydown handler: `if (e.key === 'Enter' && !e.shiftKey)`
call `sendMessage()` (after `preventDefault`), otherwise do nothing. -/
def keydownHandler (s : ChatState) (e : KeyEvent) (net : FetchOutcome) :
    ChatState × List Request :=
  if e.key == "Enter" && !e.shiftKey then sendMessage s net else (s, [])

/-- Well-formedness of the transcript positions: the `data-line` values
are strictly increasing along the transcript and all lie below the
current `lineCounter`. -/
def SeqOK (s : ChatState) : Prop :=
  (s.messages.map Message.dataLine).Pairwise (· < ·) ∧
    ∀ m ∈ s.messages, m.dataLine < s.lineCounter

instance (s : ChatState) : Decidable (SeqOK s) := by
  unfold SeqOK; infer_instance

/-- Projection out of the try block: the state carried by either a
normal completion or a throw. -/
def exceptState : Except ChatState ChatState → ChatState
  | Except.ok s => s
  | Except.error s => s

theorem countLines_pos (t : String) : 1 ≤ countLines t := by
  unfold countLines
  exact Nat.one_le_iff_ne_zero.mpr fun h =>
    List.splitOnP_ne_nil _ _ (List.length_eq_zero.mp h)

theorem addMessage_messages (s : ChatState) (t : String) (snd : Sender) :
    (addMessage s t snd).messages = s.messages ++ [⟨t, snd, s.lineCounter⟩] := rfl

theorem runForEach_map_some (texts : List String) : ∀ s : ChatState,
    ∃ s1 new, runForEach s (texts.map some) = Except.ok s1 ∧
      s1.messages = s.messages ++ new ∧
      new.map (fun m => (m.text, m.sender)) = texts.map (fun t => (t, Sender.bot)) := by
  induction texts with
  | nil => exact fun s => ⟨s, [], rfl, by simp, rfl⟩
  | cons t ts ih =>
    intro s
    obtain ⟨s1, new, hrun, hmsg, hmap⟩ := ih (addMessage s t Sender.bot)
    refine ⟨s1, ⟨t, Sender.bot, s.lineCounter⟩ :: new, hrun, ?_, by simp [hmap]⟩
    simp [hmsg, addMessage_messages]

theorem runForEach_bad_item (pre : List String) : ∀ (s : ChatState)
    (suf : List (Option String)),
    ∃ s1 new, runForEach s (pre.map some ++ none :: suf) = Except.error s1 ∧
      s1.messages = s.messages ++ new ∧
      new.map (fun m => (m.text, m.sender)) = pre.map (fun t => (t, Sender.bot)) := by
  induction pre with
  | nil => exact fun s suf => ⟨s, [], rfl, by simp, rfl⟩
  | cons t ts ih =>
    intro s suf
    obtain ⟨s1, new, hrun, hmsg, hmap⟩ := ih (addMessage s t Sender.bot) suf
    refine ⟨s1, ⟨t, Sender.bot, s.lineCounter⟩ :: new, hrun, ?_, by simp [hmap]⟩
    simp [hmsg, addMessage_messages]

theorem runForEach_appends_bots (items : List (Option String)) : ∀ s : ChatState,
    ∃ new, (exceptState (runForEach s items)).messages = s.messages ++ new ∧
      ∀ m ∈ new, m.sender = Sender.bot := by
  induction items with
  | nil => exact fun s => ⟨[], by simp [runForEach, exceptState], by simp⟩
  | cons it rest ih =>
    intro s
    cases it with
    | none => exact ⟨[], by simp [runForEach, exceptState], by simp⟩
    | some t =>
      obtain ⟨new, hmsg, hbot⟩ := ih (addMessage s t Sender.bot)
      refine ⟨⟨t, Sender.bot, s.lineCounter⟩ :: new, ?_, ?_⟩
      · simpa [runForEach, addMessage_messages] using hmsg
      · intro m hm
        rcases List.mem_cons.mp hm with hm | hm
        · subst hm; rfl
        · exact hbot m hm

theorem handleNet_appends_bots (s : ChatState) (net : FetchOutcome) :
    ∃ new, (handleNet s net).messages = s.messages ++ new ∧
      ∀ m ∈ new, m.sender = Sender.bot := by
  cases net with
  | pending => exact ⟨[], by simp [handleNet], by simp⟩
  | reject =>
    exact ⟨[⟨errorText, Sender.bot, s.lineCounter⟩],
      by simp [handleNet, addMessage_messages], by simp⟩
  | resolved status body =>
    cases body with
    | notJson =>
      exact ⟨[⟨errorText, Sender.bot, s.lineCounter⟩],
        by simp [handleNet, addMessage_messages], by simp⟩
    | nonArray =>
      exact ⟨[⟨errorText, Sender.bot, s.lineCounter⟩],
        by simp [handleNet, addMessage_messages], by simp⟩
    | array items =>
      obtain ⟨new, hmsg, hbot⟩ := runForEach_appends_bots items s
      cases hrun : runForEach s items with
      | ok s1 =>
        refine ⟨new, ?_, hbot⟩
        have h1 : s1.messages = s.messages ++ new := by
          simpa [exceptState, hrun] using hmsg
        simp [handleNet, hrun, h1]
      | error s1 =>
        refine ⟨new ++ [⟨errorText, Sender.bot, s1.lineCounter⟩], ?_, ?_⟩
        · have h1 : s1.messages = s.messages ++ new := by
            simpa [exceptState, hrun] using hmsg
          simp [handleNet, hrun, addMessage_messages, h1]
        · intro m hm
          rcases List.mem_append.mp hm with hm | hm
          · exact hbot m hm
          · simp at hm; simp [hm]

theorem handleNet_extends (s : ChatState) (net : FetchOutcome) :
    s.messages <+: (handleNet s net).messages := by
  obtain ⟨new, hmsg, _⟩ := handleNet_appends_bots s net
  exact ⟨new, hmsg.symm⟩

theorem sendMessage_extends (s : ChatState) (net : FetchOutcome) :
    s.messages <+: (sendMessage s net).1.messages := by
  unfold sendMessage
  by_cases hb : isBlank s.inputField
  · simp [hb]
  · simp only [hb, if_false]
    refine List.IsPrefix.trans ?_ (handleNet_extends (sendMessagePreNet s) net)
    exact ⟨[⟨s.inputField, Sender.user, s.lineCounter⟩], rfl⟩

theorem addMessage_seqOK {s : ChatState} (h : SeqOK s) (t : String) (snd : Sender) :
    SeqOK (addMessage s t snd) := by
  obtain ⟨hpair, hlt⟩ := h
  constructor
  · rw [addMessage_messages, List.map_append]
    rw [List.pairwise_append]
    refine ⟨hpair, by simp, ?_⟩
    intro a ha b hb
    simp at hb
    subst hb
    obtain ⟨m, hm, hma⟩ := List.mem_map.mp ha
    exact hma ▸ hlt m hm
  · intro m hm
    rw [addMessage_messages] at hm
    rcases List.mem_append.mp hm with hm | hm
    · exact lt_of_lt_of_le (hlt m hm) (Nat.le_add_right _ _)
    · simp at hm
      subst hm
      exact Nat.lt_add_of_pos_right (countLines_pos t)

theorem runForEach_seqOK (items : List (Option String)) : ∀ {s : ChatState},
    SeqOK s → SeqOK (exceptState (runForEach s items)) := by
  induction items with
  | nil => intro s h; simpa [runForEach, exceptState] using h
  | cons it rest ih =>
    intro s h
    cases it with
    | none => simpa [runForEach, exceptState] using h
    | some t =>
      simpa [runForEach] using ih (addMessage_seqOK h t Sender.bot)

theorem handleNet_seqOK {s : ChatState} (h : SeqOK s) (net : FetchOutcome) :
    SeqOK (handleNet s net) := by
  cases net with
  | pending => simpa [handleNet] using h
  | reject => exact addMessage_seqOK h _ _
  | resolved status body =>
    cases body with
    | notJson => exact addMessage_seqOK h _ _
    | nonArray => exact addMessage_seqOK h _ _
    | array items =>
      have hrun := runForEach_seqOK items h
      cases hr : runForEach s items with
      | ok s1 =>
        simpa [handleNet, hr] using (by simpa [exceptState, hr] using hrun : SeqOK s1)
      | error s1 =>
        have h1 : SeqOK s1 := by simpa [exceptState, hr] using hrun
        simpa [handleNet, hr] using addMessage_seqOK h1 errorText Sender.bot

theorem sendMessagePreNet_seqOK {s : ChatState} (h : SeqOK s) :
    SeqOK (sendMessagePreNet s) := by
  have := addMessage_seqOK h s.inputField Sender.user
  simpa [SeqOK, sendMessagePreNet] using this

theorem sendMessage_seqOK {s : ChatState} (h : SeqOK s) (net : FetchOutcome) :
    SeqOK (sendMessage s net).1 := by
  unfold sendMessage
  by_cases hb : isBlank s.inputField
  · simpa [hb] using h
  · simpa [hb] using handleNet_seqOK (sendMessagePreNet_seqOK h) net

theorem sendMessagePreNet_messages (s : ChatState) :
    (sendMessagePreNet s).messages
      = s.messages ++ [⟨s.inputField, Sender.user, s.lineCounter⟩] := rfl

/-- C1: for every input whose trimmed form is non-empty and every fetch
outcome, `sendMessage` appends exactly one user message whose text is the
raw, untrimmed input, and does so in the synchronous pre-network phase:
the final state factors as `handleNet` applied to the pre-network state,
everything appended after that phase has sender bot, and when the request
never resolves the user message is still the only message appended. -/
theorem claim1_user_message_before_request (s : ChatState) (net : FetchOutcome)
    (h : isBlank s.inputField = false) :
    sendMessage s net = (handleNet (sendMessagePreNet s) net, [mkRequest s.inputField]) ∧
    (sendMessagePreNet s).messages
      = s.messages ++ [⟨s.inputField, Sender.user, s.lineCounter⟩] ∧
    (∃ rest, (sendMessage s net).1.messages
      = s.messages ++ ⟨s.inputField, Sender.user, s.lineCounter⟩ :: rest ∧
      ∀ m ∈ rest, m.sender = Sender.bot) ∧
    (sendMessage s FetchOutcome.pending).1.messages
      = s.messages ++ [⟨s.inputField, Sender.user, s.lineCounter⟩] := by
  refine ⟨by simp [sendMessage, h], rfl, ?_, ?_⟩
  · obtain ⟨new, hmsg, hbot⟩ := handleNet_appends_bots (sendMessagePreNet s) net
    refine ⟨new, ?_, hbot⟩
    simp [sendMessage, h, hmsg, sendMessagePreNet_messages]
  · simp [sendMessage, h, handleNet, sendMessagePreNet_messages]

theorem claim1_witness :
    isBlank (initState "Hello").inputField = false ∧
    (sendMessage (initState "Hello") FetchOutcome.reject
      = (handleNet (sendMessagePreNet (initState "Hello")) FetchOutcome.reject,
         [mkRequest (initState "Hello").inputField]) ∧
    (sendMessagePreNet (initState "Hello")).messages
      = (initState "Hello").messages
        ++ [⟨(initState "Hello").inputField, Sender.user, (initState "Hello").lineCounter⟩] ∧
    (∃ rest, (sendMessage (initState "Hello") FetchOutcome.reject).1.messages
      = (initState "Hello").messages
        ++ ⟨(initState "Hello").inputField, Sender.user, (initState "Hello").lineCounter⟩ :: rest ∧
      ∀ m ∈ rest, m.sender = Sender.bot) ∧
    (sendMessage (initState "Hello") FetchOutcome.pending).1.messages
      = (initState "Hello").messages
        ++ [⟨(initState "Hello").inputField, Sender.user, (initState "Hello").lineCounter⟩]) :=
  ⟨by decide, claim1_user_message_before_request (initState "Hello") FetchOutcome.reject (by decide)⟩

/-- C2: for every resolved response whose body is a JSON array of items
each carrying a string `text` field, `sendMessage` appends, after the
user message, exactly one bot message per item with exactly that item's
text, in array order; with `texts = []` this gives zero bot messages and
no error message (nothing at all is appended after the user message). -/
theorem claim2_success_replies (s : ChatState) (status : Nat) (texts : List String)
    (h : isBlank s.inputField = false) :
    ∃ new, (sendMessage s
        (FetchOutcome.resolved status (JsonBody.array (texts.map some)))).1.messages
      = (sendMessagePreNet s).messages ++ new ∧
      new.map (fun m => (m.text, m.sender)) = texts.map (fun t => (t, Sender.bot)) := by
  obtain ⟨s1, new, hrun, hmsg, hmap⟩ := runForEach_map_some texts (sendMessagePreNet s)
  refine ⟨new, ?_, hmap⟩
  simp [sendMessage, h, handleNet, hrun, hmsg]

theorem claim2_witness :
    isBlank (initState "hi").inputField = false ∧
    ∃ new, (sendMessage (initState "hi")
        (FetchOutcome.resolved 200 (JsonBody.array (["A", "B"].map some)))).1.messages
      = (sendMessagePreNet (initState "hi")).messages ++ new ∧
      new.map (fun m => (m.text, m.sender)) = ["A", "B"].map (fun t => (t, Sender.bot)) :=
  ⟨by decide, claim2_success_replies (initState "hi") 200 ["A", "B"] (by decide)⟩

/-- C3: when the fetch rejects or the body cannot be processed as the
expected JSON array (non-JSON body, or a JSON value without `forEach`),
the catch branch appends exactly one bot message with exactly the fixed
error text — the only message after the user message — and exactly one
request was issued (no retry).  No exception escapes: `sendMessage` is a
total function, the catch converting every modelled failure. -/
theorem claim3_failure_single_error (s : ChatState) (net : FetchOutcome)
    (h : isBlank s.inputField = false)
    (hfail : net = FetchOutcome.reject ∨
      (∃ status, net = FetchOutcome.resolved status JsonBody.notJson) ∨
      (∃ status, net = FetchOutcome.resolved status JsonBody.nonArray)) :
    (sendMessage s net).1.messages
      = (sendMessagePreNet s).messages
        ++ [⟨errorText, Sender.bot, (sendMessagePreNet s).lineCounter⟩] ∧
    (sendMessage s net).2 = [mkRequest s.inputField] := by
  rcases hfail with rfl | ⟨st, rfl⟩ | ⟨st, rfl⟩ <;>
    simp [sendMessage, h, handleNet, addMessage_messages]

theorem claim3_witness :
    (isBlank (initState "hi").inputField = false) ∧
    (sendMessage (initState "hi") FetchOutcome.reject).1.messages
      = (sendMessagePreNet (initState "hi")).messages
        ++ [⟨errorText, Sender.bot, (sendMessagePreNet (initState "hi")).lineCounter⟩] ∧
    (sendMessage (initState "hi") FetchOutcome.reject).2
      = [mkRequest (initState "hi").inputField] :=
  ⟨by decide,
   claim3_failure_single_error (initState "hi") FetchOutcome.reject (by decide) (Or.inl rfl)⟩

/-- C4 counterexample: a resolved response with HTTP error status 500
whose body is the well-formed reply array `[{text:"ok"}]` is treated as
success: the transcript ends as user "hi" then bot "ok", and no message
with the fixed error text appears — contradicting the claim that a
response with an HTTP error status surfaces the fixed error message. -/
theorem claim4_counterexample :
    (sendMessage (initState "hi")
        (FetchOutcome.resolved 500 (JsonBody.array [some "ok"]))).1.messages.map
        (fun m => (m.text, m.sender))
      = [("hi", Sender.user), ("ok", Sender.bot)] ∧
    errorText ∉ (sendMessage (initState "hi")
        (FetchOutcome.resolved 500 (JsonBody.array [some "ok"]))).1.messages.map
        Message.text := by
  constructor <;> decide

/-- C4 amended: the code never inspects the HTTP status — a resolved
response is handled purely by its body, so the same body gives the same
behaviour under any two statuses; a rejected fetch, a non-JSON body and
a non-array JSON body (each regardless of status) are indistinguishable,
all collapsing to the rejection behaviour with its single fixed error
message; but an error-status response with a well-formed array body is
treated as success. -/
theorem claim4_amended_status_ignored :
    (∀ (s : ChatState) (st1 st2 : Nat) (body : JsonBody),
        sendMessage s (FetchOutcome.resolved st1 body)
          = sendMessage s (FetchOutcome.resolved st2 body)) ∧
    (∀ (s : ChatState) (status : Nat),
        sendMessage s (FetchOutcome.resolved status JsonBody.notJson)
          = sendMessage s FetchOutcome.reject) ∧
    (∀ (s : ChatState) (status : Nat),
        sendMessage s (FetchOutcome.resolved status JsonBody.nonArray)
          = sendMessage s FetchOutcome.reject) :=
  ⟨fun s st1 st2 body => by cases body <;> rfl, fun s st => rfl, fun s st => rfl⟩

/-- C5: for every input that is empty or all-whitespace (the guard
`!message.trim()` fires), `sendMessage` is a no-op: the state is
unchanged (zero messages appended, input not even cleared) and zero
requests are issued. -/
theorem claim5_blank_noop (s : ChatState) (net : FetchOutcome)
    (h : isBlank s.inputField = true) :
    sendMessage s net = (s, []) := by
  simp [sendMessage, h]

theorem claim5_witness :
    isBlank (initState "  \t ").inputField = true ∧
    sendMessage (initState "  \t ") FetchOutcome.reject = (initState "  \t ", []) :=
  ⟨by decide, claim5_blank_noop (initState "  \t ") FetchOutcome.reject (by decide)⟩

/-- C6: every append advances `lineCounter` by exactly the number of
newline-delimited lines of the appended text, which is at least 1, so
the counter strictly increases; `messageCount` advances by exactly 1;
and a concrete 3-line text counts as exactly 3 lines. -/
theorem claim6_counters (s : ChatState) (t : String) (snd : Sender) :
    (addMessage s t snd).lineCounter = s.lineCounter + countLines t ∧
    1 ≤ countLines t ∧
    s.lineCounter < (addMessage s t snd).lineCounter ∧
    (addMessage s t snd).messageCount = s.messageCount + 1 ∧
    countLines "first\nsecond\nthird" = 3 :=
  ⟨rfl, countLines_pos t, Nat.lt_add_of_pos_right (countLines_pos t), rfl, by decide⟩

/-- C7: the transcript is append-only — every operation of the component
(`addMessage`, `sendMessage` under any fetch outcome, the keydown
handler) extends the message list by a prefix-preserving append, so no
message is ever mutated or removed and existing positions never change;
moreover the position tags (`data-line` values) are strictly increasing
in append order regardless of sender, an invariant every operation
preserves and which holds at page load. -/
theorem claim7_append_only :
    (∀ (s : ChatState) (t : String) (snd : Sender),
        s.messages <+: (addMessage s t snd).messages) ∧
    (∀ (s : ChatState) (net : FetchOutcome),
        s.messages <+: (sendMessage s net).1.messages) ∧
    (∀ (s : ChatState) (e : KeyEvent) (net : FetchOutcome),
        s.messages <+: (keydownHandler s e net).1.messages) ∧
    (∀ (s : ChatState) (t : String) (snd : Sender),
        SeqOK s → SeqOK (addMessage s t snd)) ∧
    (∀ (s : ChatState) (net : FetchOutcome), SeqOK s → SeqOK (sendMessage s net).1) ∧
    (∀ (s : ChatState) (e : KeyEvent) (net : FetchOutcome),
        SeqOK s → SeqOK (keydownHandler s e net).1) ∧
    (∀ input, SeqOK (initState input)) := by
  refine ⟨fun s t snd => ⟨_, (addMessage_messages s t snd).symm⟩,
    sendMessage_extends, ?_, fun s t snd h => addMessage_seqOK h t snd,
    fun s net h => sendMessage_seqOK h net, ?_, ?_⟩
  · intro s e net
    unfold keydownHandler
    by_cases hc : (e.key == "Enter" && !e.shiftKey) = true
    · simpa [hc] using sendMessage_extends s net
    · simp [hc]
  · intro s e net h
    unfold keydownHandler
    by_cases hc : (e.key == "Enter" && !e.shiftKey) = true
    · simpa [hc] using sendMessage_seqOK h net
    · simpa [hc] using h
  · intro input
    exact ⟨by simp [initState], by simp [initState]⟩

theorem claim7_witness :
    SeqOK (initState "hi") ∧
    SeqOK (sendMessage (initState "hi") FetchOutcome.reject).1 :=
  ⟨by decide,
   claim7_append_only.2.2.2.2.1 (initState "hi") FetchOutcome.reject (by decide)⟩

/-- C8: for every non-blank input and every fetch outcome, exactly one
request is issued, and it is a POST with JSON content type whose body has
exactly the fields `session_id` — the static placeholder string
`"user"` — and `message` — the raw, untrimmed input. -/
theorem claim8_request_shape (s : ChatState) (net : FetchOutcome)
    (h : isBlank s.inputField = false) :
    (sendMessage s net).2 = [⟨"POST", "application/json", "user", s.inputField⟩] := by
  simp [sendMessage, h, mkRequest]

theorem claim8_witness :
    isBlank (initState "Hello").inputField = false ∧
    (sendMessage (initState "Hello") FetchOutcome.pending).2
      = [⟨"POST", "application/json", "user", (initState "Hello").inputField⟩] :=
  ⟨by decide, claim8_request_shape (initState "Hello") FetchOutcome.pending (by decide)⟩

/-- C9: a keydown event triggers a submission iff the key is Enter and
Shift is not held: Enter without Shift makes the handler exactly one
call to `sendMessage` on the current state, while Shift+Enter or any
other key leaves the state untouched and issues no request. -/
theorem claim9_enter_submits :
    (∀ (s : ChatState) (e : KeyEvent) (net : FetchOutcome),
        e.key = "Enter" → e.shiftKey = false →
        keydownHandler s e net = sendMessage s net) ∧
    (∀ (s : ChatState) (e : KeyEvent) (net : FetchOutcome),
        (e.key ≠ "Enter" ∨ e.shiftKey = true) →
        keydownHandler s e net = (s, [])) := by
  constructor
  · intro s e net hk hs
    simp [keydownHandler, hk, hs]
  · intro s e net hne
    rcases hne with hne | hne
    · simp [keydownHandler, hne]
    · simp [keydownHandler, hne]

theorem claim9_witness :
    keydownHandler (initState "Hello") ⟨"Enter", false⟩ FetchOutcome.pending
      = sendMessage (initState "Hello") FetchOutcome.pending ∧
    keydownHandler (initState "Hello") ⟨"Enter", true⟩ FetchOutcome.pending
      = (initState "Hello", []) :=
  ⟨claim9_enter_submits.1 (initState "Hello") ⟨"Enter", false⟩ FetchOutcome.pending rfl rfl,
   claim9_enter_submits.2 (initState "Hello") ⟨"Enter", true⟩ FetchOutcome.pending (Or.inr rfl)⟩

/-- C10: the error fallback is not atomic with the reply loop — when a
resolved array body has usable items `pre` followed by an item without a
usable `text` field, the bot messages for `pre` are appended and remain,
and then one more bot message with the fixed error text is appended; no
message appended within the submission is undone by the error branch. -/
theorem claim10_partial_replies_kept (s : ChatState) (status : Nat)
    (pre : List String) (suf : List (Option String))
    (h : isBlank s.inputField = false) :
    ∃ mid, (sendMessage s (FetchOutcome.resolved status
        (JsonBody.array (pre.map some ++ none :: suf)))).1.messages
      = (sendMessagePreNet s).messages ++ mid ∧
      mid.map (fun m => (m.text, m.sender))
        = pre.map (fun t => (t, Sender.bot)) ++ [(errorText, Sender.bot)] := by
  obtain ⟨s1, new, hrun, hmsg, hmap⟩ := runForEach_bad_item pre (sendMessagePreNet s) suf
  refine ⟨new ++ [⟨errorText, Sender.bot, s1.lineCounter⟩], ?_, ?_⟩
  · simp [sendMessage, h, handleNet, hrun, addMessage_messages, hmsg]
  · simp [hmap]

theorem claim10_witness :
    isBlank (initState "hi").inputField = false ∧
    ∃ mid, (sendMessage (initState "hi") (FetchOutcome.resolved 200
        (JsonBody.array (["A"].map some ++ none :: [])))).1.messages
      = (sendMessagePreNet (initState "hi")).messages ++ mid ∧
      mid.map (fun m => (m.text, m.sender))
        = ["A"].map (fun t => (t, Sender.bot)) ++ [(errorText, Sender.bot)] :=
  ⟨by decide, claim10_partial_replies_kept (initState "hi") 200 ["A"] [] (by decide)⟩

end Probaho
